import Mathlib

/-!
Shallow embedding of `app.py` (a LINE bot that parses "store / name amount"
messages, renders per-entry PDF receipts and replies with URLs).

Conventions of the embedding:
* Python strings are modelled as `String` / `List Char`.
* `re.match` with the pattern `([^-\d\s]+)\s*¥?([\d,]+)` is modelled by an
  explicit backtracking matcher (`btMatch`): the first group is maximal and
  backtracks character by character; `\s*`, `¥?` and `([\d,]+)` are
  deterministic (shrinking `\s*` leaves a whitespace character that neither
  `¥` nor `[\d,]` accepts, and skipping a present `¥` leaves `¥` itself,
  which `[\d,]` rejects).
* `\d` is modelled as the ASCII digits and `\s` / `str.strip` as the common
  whitespace characters (ASCII whitespace, NBSP and the ideographic space);
  the exotic Unicode whitespace and digit code points accepted by Python do
  not occur in any input considered here.
* Filesystem access (`os.path.exists`) is a boolean oracle; Google-Sheets
  access is a roster association list; the PDF canvas is a list of drawing
  commands; `unidecode` and the actual PDF writing are oracle parameters of
  the orchestrator.
-/

namespace LineBot

/-- Whitespace as stripped by `str.strip` and matched by the regex class
`\s` (restricted to the code points that occur in the bot's inputs). -/
def pyIsSpace (c : Char) : Bool :=
  c = ' ' || c = '\t' || c = '\n' || c = '\r' || c = '\x0b' || c = '\x0c' ||
  c = ' ' || c = '　'

/-- The regex class `\d` (ASCII digits). -/
def isDigitChar (c : Char) : Bool :=
  c.isDigit

/-- Python `str.strip()`: drop whitespace from both ends. -/
def strip (l : List Char) : List Char :=
  ((l.dropWhile pyIsSpace).reverse.dropWhile pyIsSpace).reverse

/-- The character class `[^-\d\s]` of the first capture group of
`LINE_PATTERN`. -/
def g1Class (c : Char) : Bool :=
  !(c = '-' || isDigitChar c || pyIsSpace c)

/-- The character class `[\d,]` of the second capture group of
`LINE_PATTERN`. -/
def amtClass (c : Char) : Bool :=
  isDigitChar c || c = ','

/-- Match `\s*¥?([\d,]+)` at the front of `rest`, returning the second
capture group.  This part of the pattern is deterministic (see the header
comment). -/
def matchRest (rest : List Char) : Option (List Char) :=
  let r1 := rest.dropWhile pyIsSpace
  let r2 := if r1.head? = some '¥' then r1.tail else r1
  let ds := r2.takeWhile amtClass
  if ds.isEmpty then none else some ds

/-- Backtracking over the length of the (maximal, nonempty) first group:
`g1rev` is the current first group reversed, `suffix` the remainder of
the line.  Python's greedy `+` tries the longest group first and gives
characters back one at a time. -/
def btMatch : List Char → List Char → Option (List Char × List Char)
  | [], _ => none
  | c :: g1rev, suffix =>
    match matchRest suffix with
    | some ds => some ((c :: g1rev).reverse, ds)
    | none => btMatch g1rev (c :: suffix)

/-- Model of `LINE_PATTERN.match(line)`: anchored match of
`([^-\d\s]+)\s*¥?([\d,]+)` returning the two capture groups.  `re.match`
only anchors at the start; trailing characters of the line are ignored. -/
def lineMatch (line : List Char) : Option (List Char × List Char) :=
  btMatch (line.takeWhile g1Class).reverse (line.dropWhile g1Class)

/-- Model of `int(amount_s.replace(',', ''))`, returning `none` where Python raises
`ValueError` (empty or non-digit remainder). -/
def parseAmount (ds : List Char) : Option Nat :=
  let digits := ds.filter (fun c => c ≠ ',')
  if digits.isEmpty then none
  else if digits.all isDigitChar then
    some (digits.foldl (fun n c => 10 * n + (c.toNat - 48)) 0)
  else none

/-- The `STORE_NAMES` table: group keyword → aliases, in insertion order. -/
def STORE_NAMES : List (String × List String) :=
  [("MINE", ["マイン", "まいん", "MINE"]),
   ("M", ["M", "えむ", "エム"])]

/-- Python's substring test `key in line`. -/
def hasSubstr (key : List Char) : List Char → Bool
  | [] => key.isEmpty
  | c :: cs => key.isPrefixOf (c :: cs) || hasSubstr key cs

/-- The `for store, keys in STORE_NAMES.items(): if any(k in line ...)`
loop: first group one of whose aliases occurs in the line. -/
def detectStore (line : List Char) : Option String :=
  (STORE_NAMES.find? (fun p => p.2.any (fun k => hasSubstr k.data line))).map
    (fun p => p.1)

/-- The store in force after scanning one line: a detected alias switches,
otherwise the previous store persists. -/
def stepStore (cur : Option String) (line : List Char) : Option String :=
  match detectStore line with
  | some s => some s
  | none => cur

/-- A parsed ledger entry `(store, name2, amount)`. -/
abbrev Entry := String × String × Nat

/-- The `m = LINE_PATTERN.match(line); if m and current_store:` body:
emit an entry when the pattern matches, a store is set and the amount
converts. -/
def lineEntry (cur : Option String) (line : List Char) : Option Entry :=
  match lineMatch line, cur with
  | some (g1, ds), some store =>
    match parseAmount ds with
    | some n => some (store, String.mk (strip g1), n)
    | none => none
  | _, _ => none

/-- The per-line loop of `detect_store_and_parse_lines`. -/
def parseLinesGo : Option String → List (List Char) → List Entry
  | _, [] => []
  | cur, raw :: rest =>
    let line := strip raw
    if line.isEmpty then parseLinesGo cur rest
    else
      let cur2 := stepStore cur line
      match lineEntry cur2 line with
      | some e => e :: parseLinesGo cur2 rest
      | none => parseLinesGo cur2 rest

/-- Model of `text.splitlines()` restricted to `\n` separators (a final empty piece
is immaterial: blank lines are skipped by the loop). -/
def splitNl : List Char → List (List Char)
  | [] => [[]]
  | c :: cs =>
    if c = '\n' then [] :: splitNl cs
    else
      match splitNl cs with
      | [] => [[c]]
      | l :: ls => (c :: l) :: ls

/-- The function `detect_store_and_parse_lines(text)`. -/
def detect_store_and_parse_lines (text : String) : List Entry :=
  parseLinesGo none (splitNl text.data)

/-- Python `str.strip` on a `String`. -/
def stripString (s : String) : String :=
  String.mk (strip s.data)

/-! ### Output path disambiguation (`get_unique_path`) -/

/-- Index of the last occurrence of `c`, if any. -/
def lastIdxOf (c : Char) : List Char → Option Nat
  | [] => none
  | x :: xs =>
    match lastIdxOf c xs with
    | some i => some (i + 1)
    | none => if x = c then some 0 else none

/-- Model of `os.path.splitext`: split at the last dot, provided it lies after the
last path separator and the basename up to it is not entirely dots. -/
def splitext (p : String) : String × String :=
  let cs := p.data
  match lastIdxOf '.' cs with
  | none => (p, "")
  | some d =>
    let s := match lastIdxOf '/' cs with
             | none => 0
             | some si => si + 1
    if s ≤ d ∧ ((cs.drop s).take (d - s)).any (fun c => c ≠ '.') then
      (String.mk (cs.take d), String.mk (cs.drop d))
    else (p, "")

/-- The candidate path `f"{stem}_{i}{ext}"`. -/
def suffixedPath (stem ext : String) (i : Nat) : String :=
  stem ++ "_" ++ toString i ++ ext

/-- The function `get_unique_path(base_path)` over a filesystem oracle `ex`
(`os.path.exists`).  The `while` loop starting at `i = 2` terminates
exactly when some suffixed path is free, which the hypothesis `h`
records; `Nat.find h` is the number of loop iterations. -/
def get_unique_path (ex : String → Bool) (base : String)
    (h : ∃ k, ex (suffixedPath (splitext base).1 (splitext base).2 (k + 2)) = false) :
    String :=
  if ex base = true then
    suffixedPath (splitext base).1 (splitext base).2 (Nat.find h + 2)
  else base

/-! ### PDF rendering (`create_receipt`) -/

/-- The unit `reportlab.lib.units.mm` in points. -/
def mm : ℚ := 72 / 25.4

/-- The function `reportlab.lib.pagesizes.landscape`. -/
def landscapeOf (p : ℚ × ℚ) : ℚ × ℚ :=
  if p.1 < p.2 then (p.2, p.1) else (p.1, p.2)

/-- The colors used by `create_receipt`. -/
inductive PdfColor where
  | black
  | purple
  | lightgrey
deriving DecidableEq, Repr

/-- One canvas call of `create_receipt`. -/
inductive PdfCmd where
  | setFillColor (c : PdfColor)
  | setStrokeColor (c : PdfColor)
  | rect (x y w h : ℚ) (fill stroke : Bool)
  | setFont (f : String) (size : ℚ)
  | drawString (x y : ℚ) (s : String)
  | showPage
  | save
deriving DecidableEq

def COMMON_COMPANY_NAME : String := "JOBドラゴン"

/-- The sequence of canvas calls issued by `create_receipt` (the body of
the function between `canvas.Canvas(...)` and `c.save()`), faithful to
the source order, with the personal-details block guarded by
`name2 != COMMON_COMPANY_NAME` and the emphasis color chosen by the same
test. -/
def create_receipt_cmds (jpFont : String) (name : String) (amount : Nat)
    (address phone_number birthdate issue_date name2 : String) : List PdfCmd :=
  let custom := (180 * mm, 100 * mm)
  let width := (landscapeOf custom).1
  let height := (landscapeOf custom).2
  [PdfCmd.setFillColor PdfColor.lightgrey,
   PdfCmd.rect (10 * mm) (height - 47 * mm) (width - 20 * mm) (12 * mm) true false,
   PdfCmd.setStrokeColor PdfColor.black,
   PdfCmd.rect (10 * mm) (10 * mm) (width - 20 * mm) (height - 20 * mm) false true,
   PdfCmd.setFillColor PdfColor.black,
   PdfCmd.setFont jpFont 16,
   PdfCmd.drawString (20 * mm + 175) (height - 20 * mm) "領収書",
   PdfCmd.setFont jpFont 12,
   PdfCmd.drawString (width - 60 * mm) (height - 22 * mm) "No.   ",
   PdfCmd.drawString (width - 60 * mm) (height - 30 * mm) ("発行日 " ++ issue_date),
   PdfCmd.setFont jpFont 17,
   PdfCmd.drawString (20 * mm + 15) (height - 30 * mm) COMMON_COMPANY_NAME,
   PdfCmd.setFont jpFont 22,
   PdfCmd.drawString (20 * mm + 150) (height - 44 * mm) ("¥ " ++ toString amount ++ "-"),
   PdfCmd.setFont jpFont 12,
   PdfCmd.drawString (20 * mm + 75) (height - 56 * mm)
     "但し 業務委託費として、上記正に領収いたしました"]
  ++ (if name2 ≠ COMMON_COMPANY_NAME then
       [PdfCmd.setFont jpFont 10,
        PdfCmd.drawString (20 * mm + 90) (height - 65 * mm) name,
        PdfCmd.drawString (20 * mm + 90) (height - 70 * mm) address,
        PdfCmd.drawString (20 * mm + 90) (height - 75 * mm) phone_number,
        PdfCmd.drawString (20 * mm + 90) (height - 80 * mm) ("生年月日 " ++ birthdate)]
      else [])
  ++ [PdfCmd.setFont jpFont 28,
      PdfCmd.setFillColor
        (if name2 ≠ COMMON_COMPANY_NAME then PdfColor.purple else PdfColor.black),
      PdfCmd.drawString (20 * mm + 240) (height - 80 * mm) name2,
      PdfCmd.showPage,
      PdfCmd.save]

/-- Observer: the strings drawn on the canvas, each with the fill color in
force when it was drawn (the canvas default fill color is black). -/
def textDraws : PdfColor → List PdfCmd → List (String × PdfColor)
  | _, [] => []
  | _, PdfCmd.setFillColor c :: rest => textDraws c rest
  | col, PdfCmd.drawString _ _ s :: rest => (s, col) :: textDraws col rest
  | col, _ :: rest => textDraws col rest

/-! ### Orchestrator (`on_message`) -/

/-- One roster row of the spreadsheet (columns 氏名 / 住所 / 電話番号 /
生年月日). -/
structure CastRow where
  name : String
  address : String
  phone : String
  birthdate : String
deriving DecidableEq, Repr

/-- The roster keyed by the 源氏名α column. -/
abbrev Roster := List (String × CastRow)

/-- The lookup `cast_df[cast_df['源氏名α'] == key]` followed by `hit.empty` /
`hit.iloc[0]`: the first row whose key column matches. -/
def rosterLookup (roster : Roster) (key : String) : Option CastRow :=
  (roster.find? (fun p => p.1 = key)).map (fun p => p.2)

/-- Digit grouping of `f"{amount:,}"`, on the reversed digit list. -/
def grp3 : List Char → List Char
  | a :: b :: c :: rest =>
    if rest.isEmpty then [a, b, c] else a :: b :: c :: ',' :: grp3 rest
  | l => l

/-- The format `f"{n:,}"`: decimal digits with a comma every three, from the right. -/
def fmtComma (n : Nat) : String :=
  String.mk (grp3 (toString n).data.reverse).reverse

/-- Model of `os.path.basename`. -/
def basename (p : String) : String :=
  String.mk (p.data.reverse.takeWhile (fun c => c ≠ '/')).reverse

/-- The success line `f"{store} {name2} ¥{amount:,} → {url}"` with
`url = f"{base_url}/pdfs/{os.path.basename(out)}"`. -/
def successMsg (baseUrl store name2 : String) (amount : Nat) (out : String) : String :=
  store ++ " " ++ name2 ++ " ¥" ++ fmtComma amount ++ " → " ++
    baseUrl ++ "/pdfs/" ++ basename out

/-- The failure line `f"【未登録】{store} {name2} {amount:,}"`. -/
def unregMsg (store name2 : String) (amount : Nat) : String :=
  "【未登録】" ++ store ++ " " ++ name2 ++ " " ++ fmtComma amount

/-- The failure line `f"作成失敗: {store} {name2} {amount:,} ({e})"`. -/
def failMsg (store name2 : String) (amount : Nat) (err : String) : String :=
  "作成失敗: " ++ store ++ " " ++ name2 ++ " " ++ fmtComma amount ++
    " (" ++ err ++ ")"

/-- A rendering oracle: what `create_receipt` returns for an entry and its
roster row (`Except.ok` the written path, `Except.error` the exception
text). -/
abbrev RenderFn := String → String → Nat → CastRow → Except String String

/-- The body of the `for store, name2, amount in items:` loop for one
entry: roster lookup (on the `unidecode`-normalized name), then the
guarded render, producing either a success line (`urls`) or a failure
line (`errors`). -/
def processOne (normalize : String → String) (roster : Roster)
    (render : RenderFn) (baseUrl : String) (e : Entry) : String ⊕ String :=
  match rosterLookup roster (normalize e.2.1) with
  | none => Sum.inr (unregMsg e.1 e.2.1 e.2.2)
  | some row =>
    match render e.1 e.2.1 e.2.2 row with
    | Except.ok out => Sum.inl (successMsg baseUrl e.1 e.2.1 e.2.2 out)
    | Except.error err => Sum.inr (failMsg e.1 e.2.1 e.2.2 err)

/-- The whole loop: the accumulated `urls` and `errors` lists. -/
def processEntries (normalize : String → String) (roster : Roster)
    (render : RenderFn) (baseUrl : String) : List Entry → List String × List String
  | [] => ([], [])
  | e :: rest =>
    let tail := processEntries normalize roster render baseUrl rest
    match processOne normalize roster render baseUrl e with
    | Sum.inl u => (u :: tail.1, tail.2)
    | Sum.inr r => (tail.1, r :: tail.2)

/-- The usage reply sent when no items were parsed. -/
def USAGE_MESSAGE : String :=
  "形式: 店舗名を含む行で切替し、その下に『名前 金額』を並べて送ってください\n例)\nMINE\n佐藤 12000\n鈴木 15000\nM\n田中 8000"

/-- The reply sent when there were items but zero successes. -/
def NO_HITS_MESSAGE : String := "該当がありませんでした。"

/-- The observable outcome of `on_message` (roster loading is assumed to
succeed; the claims under study do not concern the load-error reply). -/
inductive BotReply where
  | usage
  | results (urls : List String) (errors : List String)
  | noHits (errors : List String)
deriving DecidableEq

/-- The text of the first reply message the bot sends for an outcome. -/
def firstReplyText : BotReply → String
  | BotReply.usage => USAGE_MESSAGE
  | BotReply.results urls _ => urls.headD ""
  | BotReply.noHits _ => NO_HITS_MESSAGE

/-- The handler `on_message`: strip the text, parse; no items ⇒ usage reply; otherwise
run the loop and reply with the URLs, or with the no-hits message when
every entry failed (the failure lines are pushed afterwards in both
cases). -/
def on_message (normalize : String → String) (roster : Roster)
    (render : RenderFn) (baseUrl : String) (text : String) : BotReply :=
  let items := detect_store_and_parse_lines (stripString text)
  if items.isEmpty then BotReply.usage
  else
    let r := processEntries normalize roster render baseUrl items
    if r.1.isEmpty then BotReply.noHits r.2 else BotReply.results r.1 r.2

/-! ### Helper lemmas -/

lemma g1Class_not_space {c : Char} (h : g1Class c = true) : pyIsSpace c = false := by
  by_contra hn
  simp only [Bool.not_eq_false] at hn
  simp [g1Class, hn] at h

lemma amtClass_not_space {c : Char} (h : amtClass c = true) : pyIsSpace c = false := by
  rcases (by simpa [amtClass] using h : c.isDigit = true ∨ c = ',') with hd | hc
  · cases hps : pyIsSpace c
    · rfl
    · exfalso
      simp only [pyIsSpace, Bool.or_eq_true, decide_eq_true_eq] at hps
      rcases hps with (((((((h1 | h1) | h1) | h1) | h1) | h1) | h1) | h1) <;>
        subst h1 <;> exact absurd hd (by decide)
  · subst hc; decide

lemma amtClass_not_yen {c : Char} (h : amtClass c = true) : c ≠ '¥' := by
  intro hy
  subst hy
  exact absurd h (by decide)

lemma takeWhile_append_all {p : Char → Bool} (l r : List Char)
    (hl : ∀ c ∈ l, p c = true) (hr : ∀ c, r.head? = some c → p c = false) :
    (l ++ r).takeWhile p = l := by
  induction l with
  | nil =>
    cases r with
    | nil => rfl
    | cons b t => simp [List.takeWhile_cons, hr b rfl]
  | cons a l ih =>
    have ha := hl a (List.mem_cons_self a l)
    have ih2 := ih (fun c hc => hl c (List.mem_cons_of_mem a hc))
    simp [List.takeWhile_cons, ha, ih2]

lemma dropWhile_append_all {p : Char → Bool} (l r : List Char)
    (hl : ∀ c ∈ l, p c = true) (hr : ∀ c, r.head? = some c → p c = false) :
    (l ++ r).dropWhile p = r := by
  induction l with
  | nil =>
    cases r with
    | nil => rfl
    | cons b t => simp [List.dropWhile_cons, hr b rfl]
  | cons a l ih =>
    have ha := hl a (List.mem_cons_self a l)
    have ih2 := ih (fun c hc => hl c (List.mem_cons_of_mem a hc))
    simp [List.dropWhile_cons, ha, ih2]

lemma dropWhile_eq_self_of_neg {p : Char → Bool} (l : List Char)
    (h : ∀ c ∈ l, p c = false) : l.dropWhile p = l := by
  cases l with
  | nil => rfl
  | cons a t => simp [List.dropWhile_cons, h a (List.mem_cons_self a t)]

lemma strip_eq_self_of_no_space (l : List Char)
    (h : ∀ c ∈ l, pyIsSpace c = false) : strip l = l := by
  unfold strip
  rw [dropWhile_eq_self_of_neg l h,
    dropWhile_eq_self_of_neg l.reverse (fun c hc => h c (List.mem_reverse.mp hc)),
    List.reverse_reverse]

lemma strip_eq_nil_of_all_space (l : List Char)
    (h : ∀ c ∈ l, pyIsSpace c = true) : strip l = [] := by
  have hd : l.dropWhile pyIsSpace = [] := by
    induction l with
    | nil => rfl
    | cons a t ih =>
      simp [List.dropWhile_cons, h a (List.mem_cons_self a t),
        ih (fun c hc => h c (List.mem_cons_of_mem a hc))]
  simp [strip, hd]

lemma mem_of_mem_strip {c : Char} {l : List Char} (h : c ∈ strip l) : c ∈ l := by
  unfold strip at h
  rw [List.mem_reverse] at h
  have h1 := (List.dropWhile_sublist (l := (l.dropWhile pyIsSpace).reverse)
    (p := pyIsSpace)).subset h
  rw [List.mem_reverse] at h1
  exact (List.dropWhile_sublist (l := l) (p := pyIsSpace)).subset h1

lemma splitNl_ne_nil (cs : List Char) : splitNl cs ≠ [] := by
  cases cs with
  | nil => simp [splitNl]
  | cons c cs =>
    by_cases h : c = '\n'
    · simp [splitNl, h]
    · simp only [splitNl, if_neg h]
      cases hs : splitNl cs <;> simp

lemma mem_of_mem_splitNl {c : Char} {l cs : List Char}
    (hl : l ∈ splitNl cs) (hc : c ∈ l) : c ∈ cs := by
  induction cs generalizing l with
  | nil =>
    simp only [splitNl, List.mem_singleton] at hl
    subst hl
    exact absurd hc (List.not_mem_nil c)
  | cons x cs ih =>
    by_cases hx : x = '\n'
    · rw [splitNl, if_pos hx] at hl
      rcases List.mem_cons.mp hl with h1 | h1
      · subst h1; exact absurd hc (List.not_mem_nil c)
      · exact List.mem_cons_of_mem x (ih h1 hc)
    · rw [splitNl, if_neg hx] at hl
      cases hs : splitNl cs with
      | nil => exact absurd hs (splitNl_ne_nil cs)
      | cons l0 ls =>
        rw [hs] at hl
        rcases List.mem_cons.mp hl with h1 | h1
        · subst h1
          rcases List.mem_cons.mp hc with h2 | h2
          · exact h2 ▸ List.mem_cons_self x cs
          · exact List.mem_cons_of_mem x (ih (hs ▸ List.mem_cons_self l0 ls) h2)
        · exact List.mem_cons_of_mem x (ih (hs ▸ List.mem_cons_of_mem l0 h1) hc)

lemma parseLinesGo_all_blank (cur : Option String) (ls : List (List Char))
    (h : ∀ l ∈ ls, strip l = []) : parseLinesGo cur ls = [] := by
  induction ls with
  | nil => rfl
  | cons l ls ih =>
    simp only [parseLinesGo, h l (List.mem_cons_self l ls), List.isEmpty_nil, if_true]
    exact ih (fun l2 h2 => h l2 (List.mem_cons_of_mem l h2))

lemma detect_all_space_eq_nil (w : String)
    (h : ∀ c ∈ w.data, pyIsSpace c = true) :
    detect_store_and_parse_lines (stripString w) = [] := by
  unfold detect_store_and_parse_lines stripString
  apply parseLinesGo_all_blank
  intro l hl
  apply strip_eq_nil_of_all_space
  intro c hc
  exact h c (mem_of_mem_strip (mem_of_mem_splitNl hl hc))

/-! ### Claim theorems -/

/-- C5: parsing the five-line sample input with the configured group table
yields exactly the three entries in order, the group set by a switch line
persisting across the following data lines; moreover a line in which no
alias is detected leaves the current group unchanged. -/
theorem c5_sample_parse :
    detect_store_and_parse_lines "MINE\n佐藤 12000\n鈴木 15000\nM\n田中 8000" =
      [("MINE", "佐藤", 12000), ("MINE", "鈴木", 15000), ("M", "田中", 8000)] ∧
    ∀ (cur : Option String) (line : List Char),
      detectStore line = none → stepStore cur line = cur := by
  refine ⟨by decide, ?_⟩
  intro cur line h
  simp [stepStore, h]

/-- C5 witness: the persistence part applied at the data line
`"佐藤 12000"` with the current group `MINE`. -/
theorem c5_sample_parse_witness :
    stepStore (some "MINE") "佐藤 12000".data = some "MINE" :=
  c5_sample_parse.2 (some "MINE") "佐藤 12000".data (by decide)

/-- C1 counterexample: the line `"MINE 500"` contains the alias `MINE` of
the group `MINE`, yet the parser also emits it as a ledger entry — the
claim that a group-switch line is never emitted as a data entry is false
on the code (there is no `continue` after the switch). -/
theorem c1_counterexample :
    detect_store_and_parse_lines "MINE 500" = [("MINE", "MINE", 500)] := by
  decide

/-- C1 amended: a line containing a group alias sets the current group
from that line, and is still matched against the data pattern: whenever
the stripped line also matches the `label amount` pattern with a valid
amount, it is additionally emitted as a ledger entry, under the group it
just switched to. -/
theorem c1_switch_line_also_parsed (cur : Option String) (rest : List (List Char))
    (line : List Char) (store : String) (g1 ds : List Char) (n : Nat)
    (hstrip : strip line = line)
    (hd : detectStore line = some store)
    (hm : lineMatch line = some (g1, ds))
    (ha : parseAmount ds = some n) :
    stepStore cur line = some store ∧
    lineEntry (stepStore cur line) line = some (store, String.mk (strip g1), n) ∧
    parseLinesGo cur (line :: rest) =
      (store, String.mk (strip g1), n) :: parseLinesGo (some store) rest := by
  have hne : line ≠ [] := by
    intro h
    subst h
    simp [lineMatch, btMatch] at hm
  have hstep : stepStore cur line = some store := by simp [stepStore, hd]
  have hentry : lineEntry (stepStore cur line) line =
      some (store, String.mk (strip g1), n) := by
    simp [lineEntry, hstep, hm, ha]
  refine ⟨hstep, hentry, ?_⟩
  rw [hstep] at hentry
  simp only [parseLinesGo, hstrip]
  rw [if_neg (by simpa [List.isEmpty_iff] using hne)]
  simp [hstep, hentry]

/-- C1 witness: the amended statement applied to the line `"MINE 500"`. -/
theorem c1_switch_line_also_parsed_witness :
    stepStore none "MINE 500".data = some "MINE" ∧
    lineEntry (stepStore none "MINE 500".data) "MINE 500".data =
      some ("MINE", String.mk (strip "MINE".data), 500) ∧
    parseLinesGo none ["MINE 500".data] =
      ("MINE", String.mk (strip "MINE".data), 500) :: parseLinesGo (some "MINE") [] :=
  c1_switch_line_also_parsed none [] "MINE 500".data "MINE" "MINE".data "500".data 500
    (by decide) (by decide) (by decide) (by decide)

/-- C2: every parsed entry yields exactly one outcome — the orchestrator's
`urls` and `errors` lists are the left and right projections of the
per-entry outcome list, so their lengths add up to the number of entries
and each list keeps the original order of the entries. -/
theorem c2_outcome_partition (nz : String → String) (roster : Roster)
    (render : RenderFn) (baseUrl : String) (items : List Entry) :
    (processEntries nz roster render baseUrl items).1.length +
      (processEntries nz roster render baseUrl items).2.length = items.length ∧
    (processEntries nz roster render baseUrl items).1 =
      (items.map (processOne nz roster render baseUrl)).filterMap Sum.getLeft? ∧
    (processEntries nz roster render baseUrl items).2 =
      (items.map (processOne nz roster render baseUrl)).filterMap Sum.getRight? := by
  induction items with
  | nil => simp [processEntries]
  | cons e rest ih =>
    obtain ⟨ih1, ih2, ih3⟩ := ih
    cases h : processOne nz roster render baseUrl e with
    | inl u =>
      refine ⟨?_, ?_, ?_⟩
      · simp only [processEntries, h, List.length_cons]
        omega
      · simp [processEntries, h, ih2, Sum.getLeft?]
      · simp [processEntries, h, ih3, Sum.getRight?]
    | inr r =>
      refine ⟨?_, ?_, ?_⟩
      · simp only [processEntries, h, List.length_cons]
        omega
      · simp [processEntries, h, ih2, Sum.getLeft?]
      · simp [processEntries, h, ih3, Sum.getRight?]

/-- C6: on an amount string made of digits and thousands-separator commas
(with at least one digit), the parser yields the same integer as on the
string with the commas removed, and it does yield an integer. -/
theorem c6_comma_separators (s : List Char)
    (hall : ∀ c ∈ s, amtClass c = true)
    (hdig : ∃ c ∈ s, isDigitChar c = true) :
    parseAmount s = parseAmount (s.filter (fun c => c ≠ ',')) ∧
    (parseAmount s).isSome = true := by
  have hfilter : (s.filter (fun c => c ≠ ',')).filter (fun c => c ≠ ',') =
      s.filter (fun c => c ≠ ',') := by
    rw [List.filter_filter]
    simp
  constructor
  · unfold parseAmount
    rw [hfilter]
  · obtain ⟨c, hc, hcd⟩ := hdig
    have hcne : decide (c ≠ ',') = true := by
      simp only [ne_eq, decide_not, Bool.not_eq_true', decide_eq_false_iff_not]
      intro h
      subst h
      exact absurd hcd (by decide)
    have hmem : c ∈ s.filter (fun c => c ≠ ',') := List.mem_filter.mpr ⟨hc, hcne⟩
    have hne : (s.filter (fun c => c ≠ ',')).isEmpty = false := by
      rcases hf : s.filter (fun c => c ≠ ',') with _ | ⟨a, t⟩
      · rw [hf] at hmem
        exact absurd hmem (List.not_mem_nil c)
      · rfl
    have hallf : (s.filter (fun c => c ≠ ',')).all isDigitChar = true := by
      rw [List.all_eq_true]
      intro x hx
      obtain ⟨hxs, hxne⟩ := List.mem_filter.mp hx
      have := hall x hxs
      simp only [amtClass, Bool.or_eq_true, decide_eq_true_eq] at this
      rcases this with h1 | h1
      · exact h1
      · simp [h1] at hxne
    simp only [parseAmount, hne, hallf, Bool.false_eq_true, if_false, if_true,
      Option.isSome_some]

/-- C6 witness: `"12,000"` and `"12000"` parse to the same integer. -/
theorem c6_comma_separators_witness :
    parseAmount "12,000".data =
      parseAmount ("12,000".data.filter (fun c => c ≠ ',')) ∧
    (parseAmount "12,000".data).isSome = true :=
  c6_comma_separators "12,000".data (by decide) (by decide)

/-- C7: an entry whose normalized label has no roster record yields
exactly one failure line tagged 【未登録】 carrying group, label and
amount; the renderer is never consulted (the outcome is the same for any
rendering oracle); and the batch continues with the remaining entries
unchanged. -/
theorem c7_unregistered (nz : String → String) (roster : Roster)
    (render render2 : RenderFn) (baseUrl : String)
    (store name2 : String) (amount : Nat) (rest : List Entry)
    (h : rosterLookup roster (nz name2) = none) :
    processOne nz roster render baseUrl (store, name2, amount) =
      Sum.inr (unregMsg store name2 amount) ∧
    processOne nz roster render baseUrl (store, name2, amount) =
      processOne nz roster render2 baseUrl (store, name2, amount) ∧
    processEntries nz roster render baseUrl ((store, name2, amount) :: rest) =
      ((processEntries nz roster render baseUrl rest).1,
       unregMsg store name2 amount ::
         (processEntries nz roster render baseUrl rest).2) := by
  refine ⟨?_, ?_, ?_⟩ <;> simp [processEntries, processOne, h]

/-- C7 witness: an empty roster rejects the entry `("MINE", "佐藤", 100)`
with the 【未登録】 line, for two different rendering oracles alike. -/
theorem c7_unregistered_witness :
    processOne id [] (fun _ _ _ _ => Except.ok "out.pdf") "" ("MINE", "佐藤", 100) =
      Sum.inr (unregMsg "MINE" "佐藤" 100) ∧
    processOne id [] (fun _ _ _ _ => Except.ok "out.pdf") "" ("MINE", "佐藤", 100) =
      processOne id [] (fun _ _ _ _ => Except.error "boom") "" ("MINE", "佐藤", 100) ∧
    processEntries id [] (fun _ _ _ _ => Except.ok "out.pdf") ""
        [("MINE", "佐藤", 100)] =
      ((processEntries id [] (fun _ _ _ _ => Except.ok "out.pdf") "" []).1,
       unregMsg "MINE" "佐藤" 100 ::
         (processEntries id [] (fun _ _ _ _ => Except.ok "out.pdf") "" []).2) :=
  c7_unregistered id [] (fun _ _ _ _ => Except.ok "out.pdf")
    (fun _ _ _ _ => Except.error "boom") "" "MINE" "佐藤" 100 [] rfl

/-- C8: a failing render call yields exactly one failure line carrying the
error cause, and the remaining entries are processed exactly as they would
be on their own — a per-entry failure never aborts the batch. -/
theorem c8_render_failure (nz : String → String) (roster : Roster)
    (render : RenderFn) (baseUrl : String)
    (store name2 : String) (amount : Nat) (row : CastRow) (err : String)
    (rest : List Entry)
    (hrow : rosterLookup roster (nz name2) = some row)
    (hren : render store name2 amount row = Except.error err) :
    processOne nz roster render baseUrl (store, name2, amount) =
      Sum.inr (failMsg store name2 amount err) ∧
    processEntries nz roster render baseUrl ((store, name2, amount) :: rest) =
      ((processEntries nz roster render baseUrl rest).1,
       failMsg store name2 amount err ::
         (processEntries nz roster render baseUrl rest).2) := by
  refine ⟨?_, ?_⟩ <;> simp [processEntries, processOne, hrow, hren]

/-- C8 witness: a one-row roster and an always-failing renderer produce
the 作成失敗 line and leave the processing of a subsequent entry intact. -/
theorem c8_render_failure_witness :
    processOne id [("佐藤", CastRow.mk "A" "B" "C" "D")]
        (fun _ _ _ _ => Except.error "disk full") "" ("MINE", "佐藤", 100) =
      Sum.inr (failMsg "MINE" "佐藤" 100 "disk full") ∧
    processEntries id [("佐藤", CastRow.mk "A" "B" "C" "D")]
        (fun _ _ _ _ => Except.error "disk full") ""
        [("MINE", "佐藤", 100), ("M", "田中", 8000)] =
      ((processEntries id [("佐藤", CastRow.mk "A" "B" "C" "D")]
          (fun _ _ _ _ => Except.error "disk full") "" [("M", "田中", 8000)]).1,
       failMsg "MINE" "佐藤" 100 "disk full" ::
         (processEntries id [("佐藤", CastRow.mk "A" "B" "C" "D")]
           (fun _ _ _ _ => Except.error "disk full") "" [("M", "田中", 8000)]).2) :=
  c8_render_failure id [("佐藤", CastRow.mk "A" "B" "C" "D")]
    (fun _ _ _ _ => Except.error "disk full") "" "MINE" "佐藤" 100
    (CastRow.mk "A" "B" "C" "D") "disk full" [("M", "田中", 8000)] rfl rfl

/-- C9: an input that parses to zero entries is answered with the usage
reply; every whitespace-only (in particular empty) input parses to zero
entries; an input with entries but zero successes is answered with the
no-hits reply carrying the failure lines; and the usage reply is
distinct — as an outcome and as reply text — from that no-hits reply. -/
theorem c9_no_usable_instructions (nz : String → String) (roster : Roster)
    (render : RenderFn) (baseUrl : String) (text : String)
    (hz : detect_store_and_parse_lines (stripString text) = []) :
    on_message nz roster render baseUrl text = BotReply.usage ∧
    (∀ w : String, (∀ c ∈ w.data, pyIsSpace c = true) →
      detect_store_and_parse_lines (stripString w) = []) ∧
    (∀ w2 : String,
      detect_store_and_parse_lines (stripString w2) ≠ [] →
      (processEntries nz roster render baseUrl
        (detect_store_and_parse_lines (stripString w2))).1 = [] →
      on_message nz roster render baseUrl w2 =
        BotReply.noHits (processEntries nz roster render baseUrl
          (detect_store_and_parse_lines (stripString w2))).2) ∧
    (∀ errs : List String, BotReply.usage ≠ BotReply.noHits errs) ∧
    (∀ errs : List String,
      firstReplyText BotReply.usage ≠ firstReplyText (BotReply.noHits errs)) := by
  refine ⟨?_, ?_, ?_, ?_, ?_⟩
  · simp [on_message, hz]
  · exact fun w hw => detect_all_space_eq_nil w hw
  · intro w2 hne hzero
    simp [on_message, List.isEmpty_iff, hne, hzero]
  · intro errs h
    exact BotReply.noConfusion h
  · intro errs h
    simp only [firstReplyText] at h
    exact absurd h (by decide)

/-- C9 witness: the empty input parses to zero entries and receives the
usage reply; the input `"MINE 500"` with an empty roster has one entry,
zero successes and one failure, and receives the no-hits reply, which
differs from the usage reply both as an outcome and as text. -/
theorem c9_no_usable_instructions_witness :
    on_message id [] (fun _ _ _ _ => Except.ok "o") "" "" = BotReply.usage ∧
    detect_store_and_parse_lines (stripString " \n\t ") = [] ∧
    on_message id [] (fun _ _ _ _ => Except.ok "o") "" "MINE 500" =
      BotReply.noHits (processEntries id [] (fun _ _ _ _ => Except.ok "o") ""
        (detect_store_and_parse_lines (stripString "MINE 500"))).2 ∧
    BotReply.usage ≠ BotReply.noHits [unregMsg "MINE" "MINE" 500] ∧
    firstReplyText BotReply.usage ≠
      firstReplyText (BotReply.noHits [unregMsg "MINE" "MINE" 500]) := by
  obtain ⟨h1, h2, h3, h4, h5⟩ :=
    c9_no_usable_instructions id [] (fun _ _ _ _ => Except.ok "o") "" "" (by decide)
  exact ⟨h1, h2 " \n\t " (by decide), h3 "MINE 500" (by decide) (by decide),
    h4 [unregMsg "MINE" "MINE" 500], h5 [unregMsg "MINE" "MINE" 500]⟩

/-- C4: the receipt draws the six common text items, then — exactly when
the payee label differs from the issuer constant — the four
personal-detail lines (legal name, address, phone, birthdate with its
label), and finally the emphasized payee label, purple for personal
receipts and black when the label equals the issuer constant. -/
theorem c4_personal_block_and_color (jpFont name : String) (amount : Nat)
    (address phone_number birthdate issue_date name2 : String) :
    textDraws PdfColor.black
      (create_receipt_cmds jpFont name amount address phone_number birthdate
        issue_date name2) =
    [("領収書", PdfColor.black), ("No.   ", PdfColor.black),
     ("発行日 " ++ issue_date, PdfColor.black),
     (COMMON_COMPANY_NAME, PdfColor.black),
     ("¥ " ++ toString amount ++ "-", PdfColor.black),
     ("但し 業務委託費として、上記正に領収いたしました", PdfColor.black)]
    ++ (if name2 = COMMON_COMPANY_NAME then []
        else [(name, PdfColor.black), (address, PdfColor.black),
              (phone_number, PdfColor.black),
              ("生年月日 " ++ birthdate, PdfColor.black)])
    ++ [(name2,
         if name2 = COMMON_COMPANY_NAME then PdfColor.black else PdfColor.purple)] := by
  by_cases h : name2 = COMMON_COMPANY_NAME <;>
    simp [create_receipt_cmds, textDraws, h]

/-- C3: `get_unique_path` returns the requested path when it is free;
otherwise it returns the suffixed path `stem_i ext` for the smallest
`i ≥ 2` whose path is free; in every case the returned path does not
exist yet, so no existing artifact is overwritten. -/
theorem c3_get_unique_path (ex : String → Bool) (base : String)
    (h : ∃ k, ex (suffixedPath (splitext base).1 (splitext base).2 (k + 2)) = false) :
    (ex base = false → get_unique_path ex base h = base) ∧
    ex (get_unique_path ex base h) = false ∧
    (ex base = true →
      ∃ i, 2 ≤ i ∧
        get_unique_path ex base h =
          suffixedPath (splitext base).1 (splitext base).2 i ∧
        ∀ j, 2 ≤ j → j < i →
          ex (suffixedPath (splitext base).1 (splitext base).2 j) = true) := by
  by_cases hb : ex base = true
  · refine ⟨fun hfalse => absurd hb (by simp [hfalse]), ?_, ?_⟩
    · rw [get_unique_path, if_pos hb]
      exact Nat.find_spec h
    · intro _
      refine ⟨Nat.find h + 2, by omega, by rw [get_unique_path, if_pos hb], ?_⟩
      intro j h2 hj
      have hm : j - 2 < Nat.find h := by omega
      have := Nat.find_min h hm
      have hj2 : j - 2 + 2 = j := by omega
      rw [hj2] at this
      cases hx : ex (suffixedPath (splitext base).1 (splitext base).2 j) with
      | false => exact absurd hx this
      | true => rfl
  · have hb2 : ex base = false := by simpa using hb
    refine ⟨fun _ => by rw [get_unique_path, if_neg hb], ?_, fun htrue => absurd htrue hb⟩
    rw [get_unique_path, if_neg hb]
    exact hb2

/-- Filesystem oracle for the C3 scenario: only `a.pdf` exists. -/
def exScenario1 : String → Bool := fun s => decide (s = "a.pdf")

/-- Filesystem oracle for the C3 scenario after the first render:
`a.pdf` and `a_2.pdf` exist. -/
def exScenario2 : String → Bool := fun s => decide (s = "a.pdf" ∨ s = "a_2.pdf")

/-- Some suffixed path is free under `exScenario1`. -/
def hexScenario1 :
    ∃ k, exScenario1 (suffixedPath (splitext "a.pdf").1 (splitext "a.pdf").2 (k + 2)) =
      false := ⟨0, by decide⟩

/-- Some suffixed path is free under `exScenario2`. -/
def hexScenario2 :
    ∃ k, exScenario2 (suffixedPath (splitext "a.pdf").1 (splitext "a.pdf").2 (k + 2)) =
      false := ⟨1, by decide⟩

/-- C3 witness: rendering to the existing `a.pdf` chooses `a_2.pdf`;
repeating once `a_2.pdf` also exists chooses `a_3.pdf`; the earlier files
are still present and the chosen path never exists beforehand. -/
theorem c3_get_unique_path_witness :
    get_unique_path exScenario1 "a.pdf" hexScenario1 = "a_2.pdf" ∧
    get_unique_path exScenario2 "a.pdf" hexScenario2 = "a_3.pdf" ∧
    exScenario2 "a.pdf" = true ∧ exScenario2 "a_2.pdf" = true ∧
    exScenario1 (get_unique_path exScenario1 "a.pdf" hexScenario1) = false ∧
    exScenario2 (get_unique_path exScenario2 "a.pdf" hexScenario2) = false := by
  have hf1 : Nat.find hexScenario1 = 0 := (Nat.find_eq_zero hexScenario1).mpr (by decide)
  have hf2 : Nat.find hexScenario2 = 1 := by
    rw [Nat.find_eq_iff]
    exact ⟨by decide, by decide⟩
  have e1 : get_unique_path exScenario1 "a.pdf" hexScenario1 = "a_2.pdf" := by
    rw [get_unique_path, if_pos (by decide), hf1]
    decide
  have e2 : get_unique_path exScenario2 "a.pdf" hexScenario2 = "a_3.pdf" := by
    rw [get_unique_path, if_pos (by decide), hf2]
    decide
  exact ⟨e1, e2, by decide, by decide,
    (c3_get_unique_path exScenario1 "a.pdf" hexScenario1).2.1,
    (c3_get_unique_path exScenario2 "a.pdf" hexScenario2).2.1⟩

/-- C10: the data pattern is matched as a prefix of the line: a line
consisting of a label, a space, an amount and arbitrary trailing
characters (not extending the digit run) matches with exactly that label
and amount, and — when a group is in force — is emitted as an entry built
from that prefix only, whatever the trailing characters are. -/
theorem c10_prefix_match (cur : Option String) (store : String)
    (name ds rest : List Char) (n : Nat)
    (hname : name ≠ [])
    (hnc : ∀ c ∈ name, g1Class c = true)
    (hds0 : ds ≠ [])
    (hds : ∀ c ∈ ds, amtClass c = true)
    (hrest : ∀ c ∈ rest.take 1, amtClass c = false)
    (hstore : stepStore cur (name ++ ' ' :: (ds ++ rest)) = some store)
    (hn : parseAmount ds = some n) :
    lineMatch (name ++ ' ' :: (ds ++ rest)) = some (name, ds) ∧
    lineEntry (stepStore cur (name ++ ' ' :: (ds ++ rest)))
        (name ++ ' ' :: (ds ++ rest)) = some (store, String.mk name, n) := by
  have hspace : g1Class ' ' = false := by decide
  have htake : (name ++ ' ' :: (ds ++ rest)).takeWhile g1Class = name := by
    have : (' ' :: (ds ++ rest)).head? = some ' ' := rfl
    exact takeWhile_append_all name (' ' :: (ds ++ rest)) hnc
      (fun c hc => by
        rw [this] at hc
        cases hc
        exact hspace)
  have hdrop : (name ++ ' ' :: (ds ++ rest)).dropWhile g1Class = ' ' :: (ds ++ rest) := by
    exact dropWhile_append_all name (' ' :: (ds ++ rest)) hnc
      (fun c hc => by
        cases hc
        exact hspace)
  obtain ⟨d, dt, hdeq⟩ : ∃ d dt, ds = d :: dt := by
    cases ds with
    | nil => exact absurd rfl hds0
    | cons d dt => exact ⟨d, dt, rfl⟩
  have hdmem : d ∈ ds := hdeq ▸ List.mem_cons_self d dt
  have hdspace : pyIsSpace d = false := amtClass_not_space (hds d hdmem)
  have hdyen : d ≠ '¥' := amtClass_not_yen (hds d hdmem)
  have hrest2 : ∀ c, rest.head? = some c → amtClass c = false := by
    intro c hc
    cases rest with
    | nil => exact absurd hc (by simp)
    | cons r rt =>
      have hcr : r = c := by simpa using hc
      subst hcr
      exact hrest r (by simp)
  have hdw : (' ' :: (ds ++ rest)).dropWhile pyIsSpace = ds ++ rest := by
    rw [List.dropWhile_cons]
    simp only [show pyIsSpace ' ' = true by decide, if_true]
    rw [hdeq]
    simp only [List.cons_append, List.dropWhile_cons, hdspace]
    simp
  have hhead : (ds ++ rest).head? = some d := by
    rw [hdeq]
    rfl
  have htw : (ds ++ rest).takeWhile amtClass = ds :=
    takeWhile_append_all ds rest hds hrest2
  have hmr : matchRest (' ' :: (ds ++ rest)) = some ds := by
    simp only [matchRest, hdw, hhead]
    rw [if_neg (fun hcon : some d = some '¥' => hdyen (Option.some.inj hcon))]
    rw [htw]
    rw [if_neg (by simpa [List.isEmpty_iff] using hds0)]
  obtain ⟨a, nr, hna⟩ : ∃ a nr, name.reverse = a :: nr := by
    cases hr : name.reverse with
    | nil => exact absurd (by simpa using hr) hname
    | cons a nr => exact ⟨a, nr, rfl⟩
  have hlm : lineMatch (name ++ ' ' :: (ds ++ rest)) = some (name, ds) := by
    rw [lineMatch, htake, hdrop, hna, btMatch, hmr]
    have : (a :: nr).reverse = name := by
      rw [← hna, List.reverse_reverse]
    rw [this]
  have hstripname : strip name = name :=
    strip_eq_self_of_no_space name (fun c hc => g1Class_not_space (hnc c hc))
  refine ⟨hlm, ?_⟩
  simp [lineEntry, hlm, hstore, hn, hstripname]

/-- C10 witness: the line `"佐藤 12000円"` — with trailing text after the
digits — still matches with label `佐藤` and amount `12000` and is emitted
as that entry under the current group. -/
theorem c10_prefix_match_witness :
    lineMatch ("佐藤".data ++ ' ' :: ("12000".data ++ "円".data)) =
      some ("佐藤".data, "12000".data) ∧
    lineEntry (stepStore (some "MINE") ("佐藤".data ++ ' ' :: ("12000".data ++ "円".data)))
        ("佐藤".data ++ ' ' :: ("12000".data ++ "円".data)) =
      some ("MINE", String.mk "佐藤".data, 12000) :=
  c10_prefix_match (some "MINE") "MINE" "佐藤".data "12000".data "円".data 12000
    (by decide) (by decide) (by decide) (by decide) (by decide) (by decide) (by decide)

end LineBot
